import Mathlib

/-!
Verification of the validate-and-promote pipeline
(src/config.py, src/validate_and_promote.py, src/evaluate.py).

Metric values are floats in the source; comparisons on them are embedded
over `ℚ`, which preserves the order semantics of the `>=` checks.
-/

/-- Metric set produced by `_score` in src/validate_and_promote.py for a
non-None model: the four mandatory macro metrics. `roc_auc_macro` is
tracked separately where needed (see `scoreReport`). -/
structure Metrics where
  accuracy : ℚ
  precision_macro : ℚ
  recall_macro : ℚ
  f1_macro : ℚ
deriving DecidableEq, Repr

/-- src/config.py, `PromotionGates`. -/
structure PromotionGates where
  min_f1 : ℚ
  min_accuracy : ℚ
deriving DecidableEq, Repr

/-- src/validate_and_promote.py line 91: `gates_ok`. The Python reads the
dict with `cand_m.get("accuracy", 0.0)` and `cand_m.get("f1_macro", 1.0)`;
for a loaded (non-None) model `_score` always returns all four keys, so the
defaults are dead and the structure fields are read directly. -/
def gatesOk (cand_m : Metrics) (g : PromotionGates) : Bool :=
  decide (cand_m.accuracy ≥ g.min_accuracy) && decide (Metrics.f1_macro cand_m ≥ g.min_f1)

/-- src/validate_and_promote.py lines 94-97: `better` starts `True` and is
overwritten only when champion metrics are present. -/
def betterOrEqual (cand_m : Metrics) (champ_m : Option Metrics) : Bool :=
  match champ_m with
  | none => true
  | some c => decide (cand_m.accuracy ≥ c.accuracy) && decide (Metrics.f1_macro cand_m ≥ Metrics.f1_macro c)

/-- src/validate_and_promote.py line 99:
`decision = "promote" if (gates_ok and better) or (not champ_m and gates_ok) else "reject"`. -/
def promotionDecision (cand_m : Metrics) (champ_m : Option Metrics) (g : PromotionGates) : String :=
  let gates_ok := gatesOk cand_m g
  let better := betterOrEqual cand_m champ_m
  if (gates_ok && better) || (champ_m.isNone && gates_ok) then "promote" else "reject"

/-- src/validate_and_promote.py lines 139-141: reason codes gathered on the
reject branch. -/
def reasonBits (gates_ok better : Bool) (champ_m : Option Metrics) : List String :=
  (if !gates_ok then ["failed_gates"] else []) ++
    (if champ_m.isSome && !better then ["not_better_than_champion"] else [])

/-- src/validate_and_promote.py line 143:
`",".join(reason_bits) or "unspecified"` (an empty join is falsy). -/
def rejectedReasonValue (bits : List String) : String :=
  let s := String.intercalate "," bits
  if s = "" then "unspecified" else s

/-- Claim C1: the decision is `promote` iff the gates pass and the candidate
is better-or-equal to the champion (better-or-equal being true whenever
champion metrics are absent, and otherwise componentwise `≥` on accuracy and
f1_macro, ties included); in every other case the decision is `reject`. -/
theorem promotion_decision_iff_gates_and_better (cand_m : Metrics) (champ_m : Option Metrics)
    (g : PromotionGates) :
    (promotionDecision cand_m champ_m g = "promote" ↔
      (cand_m.accuracy ≥ g.min_accuracy ∧ Metrics.f1_macro cand_m ≥ g.min_f1) ∧
        (match champ_m with
         | none => True
         | some c => cand_m.accuracy ≥ c.accuracy ∧ Metrics.f1_macro cand_m ≥ Metrics.f1_macro c)) ∧
    (promotionDecision cand_m champ_m g ≠ "promote" →
      promotionDecision cand_m champ_m g = "reject") := by
  constructor
  · unfold promotionDecision gatesOk betterOrEqual
    cases champ_m with
    | none =>
      simp only [Option.isNone_none, Bool.and_true, Bool.or_self, Bool.and_eq_true,
        decide_eq_true_eq]
      by_cases h₁ : cand_m.accuracy ≥ g.min_accuracy <;>
        by_cases h₂ : Metrics.f1_macro cand_m ≥ g.min_f1 <;>
        simp [h₁, h₂]
    | some c =>
      simp only [Option.isNone_some, Bool.false_and, Bool.or_false, Bool.and_eq_true,
        decide_eq_true_eq]
      by_cases h₁ : cand_m.accuracy ≥ g.min_accuracy <;>
        by_cases h₂ : Metrics.f1_macro cand_m ≥ g.min_f1 <;>
        by_cases h₃ : cand_m.accuracy ≥ c.accuracy <;>
        by_cases h₄ : Metrics.f1_macro cand_m ≥ Metrics.f1_macro c <;>
        simp [h₁, h₂, h₃, h₄]
  · unfold promotionDecision
    intro h
    by_cases hc : (gatesOk cand_m g && betterOrEqual cand_m champ_m) ||
        (champ_m.isNone && gatesOk cand_m g)
    · simp [hc] at h ⊢
    · simp [hc]

/-- Claim C5: on a reject decision, `failed_gates` is attached exactly when
the gates failed; `not_better_than_champion` exactly when champion metrics
existed and the comparison failed; both may co-occur; the fallback
`"unspecified"` value of the `rejected_reason` tag is unreachable. -/
theorem reject_reason_codes (cand_m : Metrics) (champ_m : Option Metrics) (g : PromotionGates)
    (h : promotionDecision cand_m champ_m g = "reject") :
    ("failed_gates" ∈ reasonBits (gatesOk cand_m g) (betterOrEqual cand_m champ_m) champ_m ↔
      gatesOk cand_m g = false) ∧
    ("not_better_than_champion" ∈
        reasonBits (gatesOk cand_m g) (betterOrEqual cand_m champ_m) champ_m ↔
      champ_m.isSome = true ∧ betterOrEqual cand_m champ_m = false) ∧
    rejectedReasonValue
        (reasonBits (gatesOk cand_m g) (betterOrEqual cand_m champ_m) champ_m) ≠
      "unspecified" := by
  cases champ_m with
  | none =>
    have hg : gatesOk cand_m g = false := by
      cases hgv : gatesOk cand_m g
      · rfl
      · exfalso
        simp only [promotionDecision, betterOrEqual, hgv, Bool.and_true, Option.isNone_none,
          Bool.true_and, Bool.or_self, if_pos] at h
        exact absurd h (by decide)
    refine ⟨?_, ?_, ?_⟩ <;>
      simp [reasonBits, rejectedReasonValue, betterOrEqual, hg, String.intercalate] <;> decide
  | some c =>
    cases hgv : gatesOk cand_m g <;> cases hbv : betterOrEqual cand_m (some c)
    · refine ⟨?_, ?_, ?_⟩ <;>
        simp [reasonBits, rejectedReasonValue, hgv, hbv, String.intercalate] <;> decide
    · refine ⟨?_, ?_, ?_⟩ <;>
        simp [reasonBits, rejectedReasonValue, hgv, hbv, String.intercalate] <;> decide
    · refine ⟨?_, ?_, ?_⟩ <;>
        simp [reasonBits, rejectedReasonValue, hgv, hbv, String.intercalate] <;> decide
    · exfalso
      simp only [promotionDecision, hgv, hbv, Bool.and_self, Option.isNone_some,
        Bool.false_and, Bool.or_false, if_pos] at h
      exact absurd h (by decide)

/-- Closed instance of C5: Scenario C of the spec (candidate worse than
champion, gates pass) is rejected with reason `not_better_than_champion`. -/
theorem reject_reason_codes_witness :
    ("failed_gates" ∈
        reasonBits
          (gatesOk ⟨93/100, 9/10, 9/10, 88/100⟩ ⟨8/10, 8/10⟩)
          (betterOrEqual ⟨93/100, 9/10, 9/10, 88/100⟩ (some ⟨94/100, 9/10, 9/10, 9/10⟩))
          (some ⟨94/100, 9/10, 9/10, 9/10⟩) ↔
      gatesOk ⟨93/100, 9/10, 9/10, 88/100⟩ ⟨8/10, 8/10⟩ = false) ∧
    ("not_better_than_champion" ∈
        reasonBits
          (gatesOk ⟨93/100, 9/10, 9/10, 88/100⟩ ⟨8/10, 8/10⟩)
          (betterOrEqual ⟨93/100, 9/10, 9/10, 88/100⟩ (some ⟨94/100, 9/10, 9/10, 9/10⟩))
          (some ⟨94/100, 9/10, 9/10, 9/10⟩) ↔
      (some (⟨94/100, 9/10, 9/10, 9/10⟩ : Metrics)).isSome = true ∧
        betterOrEqual ⟨93/100, 9/10, 9/10, 88/100⟩ (some ⟨94/100, 9/10, 9/10, 9/10⟩) = false) ∧
    rejectedReasonValue
        (reasonBits
          (gatesOk ⟨93/100, 9/10, 9/10, 88/100⟩ ⟨8/10, 8/10⟩)
          (betterOrEqual ⟨93/100, 9/10, 9/10, 88/100⟩ (some ⟨94/100, 9/10, 9/10, 9/10⟩))
          (some ⟨94/100, 9/10, 9/10, 9/10⟩)) ≠
      "unspecified" :=
  reject_reason_codes ⟨93/100, 9/10, 9/10, 88/100⟩ (some ⟨94/100, 9/10, 9/10, 9/10⟩)
    ⟨8/10, 8/10⟩ (by norm_num [promotionDecision, gatesOk, betterOrEqual])

/-- src/config.py line 14, `_get_env`: an unset or empty environment
variable reads as absent. `env` is the process environment. -/
def getEnvVal (env : String → Option String) (key : String) : Option String :=
  match env key with
  | some v => if v = "" then none else some v
  | none => none

/-- src/config.py line 64: `min_f1 = float(_get_env("PROMOTE_MIN_F1") or 0.0)`.
`parse` stands for Python `float` on a string. -/
def loadedMinF1 (env : String → Option String) (parse : String → ℚ) : ℚ :=
  match getEnvVal env "PROMOTE_MIN_F1" with
  | some s => parse s
  | none => 0

/-- src/config.py line 65: `min_accuracy = float(_get_env("PROMOTE_MIN_ACCURACY") or 0.0)`. -/
def loadedMinAccuracy (env : String → Option String) (parse : String → ℚ) : ℚ :=
  match getEnvVal env "PROMOTE_MIN_ACCURACY" with
  | some s => parse s
  | none => 0

/-- src/config.py lines 64-72: the gates carried by the loaded `AppConfig`. -/
def loadedGates (env : String → Option String) (parse : String → ℚ) : PromotionGates :=
  { min_f1 := loadedMinF1 env parse, min_accuracy := loadedMinAccuracy env parse }

/-- Claim C9: the gate thresholds are read only from `PROMOTE_MIN_F1` and
`PROMOTE_MIN_ACCURACY`, default to 0 when those are unset or empty, and
under the defaults the gates pass for every candidate whose accuracy and
f1_macro are ≥ 0. -/
theorem gate_thresholds_default_zero (env : String → Option String) (parse : String → ℚ)
    (hf : env "PROMOTE_MIN_F1" = none ∨ env "PROMOTE_MIN_F1" = some "")
    (ha : env "PROMOTE_MIN_ACCURACY" = none ∨ env "PROMOTE_MIN_ACCURACY" = some "") :
    loadedGates env parse = { min_f1 := 0, min_accuracy := 0 } ∧
    (∀ m : Metrics, 0 ≤ m.accuracy → 0 ≤ Metrics.f1_macro m → gatesOk m (loadedGates env parse) = true) ∧
    (∀ env₂ : String → Option String,
      env₂ "PROMOTE_MIN_F1" = env "PROMOTE_MIN_F1" →
      env₂ "PROMOTE_MIN_ACCURACY" = env "PROMOTE_MIN_ACCURACY" →
      loadedGates env₂ parse = loadedGates env parse) := by
  have hgz : loadedGates env parse = { min_f1 := 0, min_accuracy := 0 } := by
    unfold loadedGates loadedMinF1 loadedMinAccuracy getEnvVal
    rcases hf with hf | hf <;> rcases ha with ha | ha <;> simp [hf, ha]
  refine ⟨hgz, ?_, ?_⟩
  · intro m hacc hf1
    rw [hgz]
    unfold gatesOk
    simp only [Bool.and_eq_true, decide_eq_true_eq]
    exact ⟨hacc, hf1⟩
  · intro env₂ h₁ h₂
    unfold loadedGates loadedMinF1 loadedMinAccuracy getEnvVal
    rw [h₁, h₂]

/-- Closed instance of C9 at the empty environment: both thresholds default
to 0 and the gates pass for a concrete in-range metric set. -/
theorem gate_thresholds_default_zero_witness :
    loadedGates (fun _ => none) (fun _ => 0) = { min_f1 := 0, min_accuracy := 0 } ∧
    (∀ m : Metrics, 0 ≤ m.accuracy → 0 ≤ Metrics.f1_macro m →
      gatesOk m (loadedGates (fun _ => none) (fun _ => 0)) = true) ∧
    (∀ env₂ : String → Option String,
      env₂ "PROMOTE_MIN_F1" = (fun _ => none : String → Option String) "PROMOTE_MIN_F1" →
      env₂ "PROMOTE_MIN_ACCURACY" =
        (fun _ => none : String → Option String) "PROMOTE_MIN_ACCURACY" →
      loadedGates env₂ (fun _ => 0) = loadedGates (fun _ => none) (fun _ => 0)) :=
  gate_thresholds_default_zero (fun _ => none) (fun _ => 0) (Or.inl rfl) (Or.inl rfl)

/-- Registry model version as read by src/validate_and_promote.py:
`v.version` (numeric) and `v.current_stage`. -/
structure ModelVersion where
  version : ℕ
  current_stage : String
deriving DecidableEq, Repr

/-- Python `max(vs, key=lambda v: int(v.version))` over the nonempty list
`v :: vs`: keeps the earlier element on ties, as Python `max` does. -/
def maxByVersion (v : ModelVersion) (vs : List ModelVersion) : ModelVersion :=
  vs.foldl (fun acc x => if x.version > acc.version then x else acc) v

/-- src/config.py `MLflowConfig`, plus the `production_alias` field.
Modelled from the spec: src/validate_and_promote.py line 53 and
src/serve.py read `cfg.mlflow.production_alias`, but the dataclass in
src/config.py lacks that field; §6 of the design lists the production
alias among the externally supplied configuration. -/
structure MLflowConfig where
  tracking_uri : String
  experiment : String
  model_name : String
  production_alias : String

/-- Modelled from the spec: the reload endpoint configuration read as
`cfg.api.reload_url` and `cfg.api.reload_token` by
src/validate_and_promote.py lines 127-130; no `api` section exists in
src/config.py. §6 lists "reload endpoint + credential", both optional.
In the Python guard `if cfg.api.reload_url:` both `None` and the empty
string are falsy. -/
structure ApiConfig where
  reload_url : Option String
  reload_token : Option String

/-- src/config.py `AppConfig`, restricted to the sections the orchestrator
reads (`data`, `split` and `model` are consumed by other pipeline stages). -/
structure AppConfig where
  mlflow : MLflowConfig
  gates : PromotionGates
  api : ApiConfig

/-- Observable side effects of one run of `main` in
src/validate_and_promote.py, in program order. -/
inductive Effect where
  | loadTestDf
  | searchVersions (name : String)
  | loadModel (uri : String)
  | scoreModel (uri : String)
  | auditWrite (decision : String) (candVersion : ℕ) (champVersion : Option ℕ)
  | setAlias (name aliasName : String) (version : ℕ)
  | setTag (name : String) (version : ℕ) (key value : String)
  | reloadPost (url : String)
  | reloadStatusLogged
  | reloadFailureLogged
deriving DecidableEq, Repr

/-- Fatal errors of `main`: src/validate_and_promote.py lines 18-19
(missing holdout), 59-60 (no versions), 81-82 (model load). -/
inductive RunError where
  | testDataNotFound
  | noVersions (name : String)
  | modelLoadError (uri : String)
deriving DecidableEq, Repr

/-- Terminal outcome of a non-aborted run. -/
inductive Outcome where
  | promoted
  | rejected
  | skipped
deriving DecidableEq, Repr

/-- Abstract environment of one orchestration run. `aliasChamp` is the
result of `client.get_model_version_by_alias` (`none` when the call
raises); `scoreOf` gives the metrics `_score` computes for the model
loaded from a URI against the fixed holdout; `candLoadOk`/`champLoadOk`
say whether the two `mlflow.pyfunc.load_model` calls succeed; `reloadOk`
says whether `requests.post` to the reload URL returns rather than raises. -/
structure World where
  cfg : AppConfig
  testDfExists : Bool
  versions : List ModelVersion
  aliasChamp : Option ModelVersion
  candLoadOk : Bool
  champLoadOk : Bool
  scoreOf : String → Metrics
  reloadOk : Bool

/-- src/validate_and_promote.py lines 63-70: champion via alias lookup,
falling back (when the lookup raises) to the highest-numbered version in
stage "Production", or `None` when that stage is empty. -/
def resolveChampion (aliasChamp : Option ModelVersion) (versions : List ModelVersion) :
    Option ModelVersion :=
  match aliasChamp with
  | some v => some v
  | none =>
    match versions.filter (fun v => v.current_stage = "Production") with
    | [] => none
    | p :: ps => some (maxByVersion p ps)

/-- src/validate_and_promote.py line 72: `models:/{name}/{version}`. -/
def candidateUri (name : String) (version : ℕ) : String :=
  "models:/" ++ name ++ "/" ++ toString version

/-- src/validate_and_promote.py line 73: `models:/{name}@{alias}`. -/
def championUri (name aliasName : String) : String :=
  "models:/" ++ name ++ "@" ++ aliasName

/-- src/validate_and_promote.py lines 127-135: the optional reload request
after a completed promotion. A falsy URL means no attempt; a failed post
is caught and logged (line 134-135), a successful one has its status
logged (line 133). -/
def reloadStep (api : ApiConfig) (reloadOk : Bool) : List Effect :=
  match api.reload_url with
  | none => []
  | some u =>
    if u = "" then []
    else if reloadOk then [Effect.reloadPost u, Effect.reloadStatusLogged]
    else [Effect.reloadPost u, Effect.reloadFailureLogged]

/-- src/validate_and_promote.py lines 118-144: the mutation phase reached
when the idempotency guard did not fire. -/
def mutationPhase (cfg : AppConfig) (reloadOk : Bool) (candVersion : ℕ)
    (decision : String) (gates_ok better : Bool) (champ_m : Option Metrics) :
    List Effect × Outcome :=
  let name := cfg.mlflow.model_name
  if decision = "promote" then
    ([Effect.setAlias name cfg.mlflow.production_alias candVersion,
      Effect.setTag name candVersion "decision" "promoted"] ++ reloadStep cfg.api reloadOk,
     Outcome.promoted)
  else
    ([Effect.setTag name candVersion "decision" "rejected",
      Effect.setTag name candVersion "rejected_reason"
        (rejectedReasonValue (reasonBits gates_ok better champ_m))],
     Outcome.rejected)

/-- src/validate_and_promote.py lines 84-144: scoring, decision, audit,
idempotency guard and mutation, entered once both loads succeeded. -/
def runScored (w : World) (cand : ModelVersion) (champ : Option ModelVersion)
    (candUri : String) (champUri : Option String) (tr : List Effect) :
    List Effect × Except RunError Outcome :=
  let cand_m := w.scoreOf candUri
  let champ_m := champUri.map w.scoreOf
  let tr := tr ++ [Effect.scoreModel candUri] ++
    (match champUri with | some cu => [Effect.scoreModel cu] | none => [])
  let gates_ok := gatesOk cand_m w.cfg.gates
  let better := betterOrEqual cand_m champ_m
  let decision := promotionDecision cand_m champ_m w.cfg.gates
  let tr := tr ++ [Effect.auditWrite decision cand.version (champ.map ModelVersion.version)]
  match champ with
  | some ch =>
    if cand.version = ch.version then
      (tr, Except.ok Outcome.skipped)
    else
      let step := mutationPhase w.cfg w.reloadOk cand.version decision gates_ok better champ_m
      (tr ++ step.1, Except.ok step.2)
  | none =>
    let step := mutationPhase w.cfg w.reloadOk cand.version decision gates_ok better champ_m
    (tr ++ step.1, Except.ok step.2)

/-- src/validate_and_promote.py `main` (lines 46-144) as a function from the
abstract environment to the ordered effect trace and the result. -/
def run (w : World) : List Effect × Except RunError Outcome :=
  let name := w.cfg.mlflow.model_name
  let aliasName := w.cfg.mlflow.production_alias
  if w.testDfExists = false then
    ([], Except.error RunError.testDataNotFound)
  else
    let tr := [Effect.loadTestDf, Effect.searchVersions name]
    match w.versions with
    | [] => (tr, Except.error (RunError.noVersions name))
    | v :: vs =>
      let cand := maxByVersion v vs
      let champ := resolveChampion w.aliasChamp (v :: vs)
      let candUri := candidateUri name cand.version
      let champUri := if champ.isSome then some (championUri name aliasName) else none
      let tr := tr ++ [Effect.loadModel candUri]
      if w.candLoadOk = false then
        (tr, Except.error (RunError.modelLoadError candUri))
      else
        match champUri with
        | some cu =>
          let tr := tr ++ [Effect.loadModel cu]
          if w.champLoadOk = false then
            (tr, Except.error (RunError.modelLoadError cu))
          else
            runScored w cand champ candUri (some cu) tr
        | none => runScored w cand champ candUri none tr

theorem maxByVersion_mem (v : ModelVersion) (vs : List ModelVersion) :
    maxByVersion v vs ∈ v :: vs := by
  induction vs generalizing v with
  | nil => simp [maxByVersion]
  | cons x xs ih =>
    have hstep : maxByVersion v (x :: xs) =
        maxByVersion (if x.version > v.version then x else v) xs := rfl
    rw [hstep]
    rcases List.mem_cons.mp (ih (if x.version > v.version then x else v)) with h | h
    · rw [h]
      by_cases hx : x.version > v.version <;> simp [hx]
    · simp only [List.mem_cons]
      tauto

theorem maxByVersion_ge (v : ModelVersion) (vs : List ModelVersion) :
    ∀ x ∈ v :: vs, x.version ≤ (maxByVersion v vs).version := by
  induction vs generalizing v with
  | nil =>
    intro x hx
    rw [List.mem_singleton] at hx
    rw [hx]
    exact le_refl _
  | cons y ys ih =>
    intro x hx
    have hstep : maxByVersion v (y :: ys) =
        maxByVersion (if y.version > v.version then y else v) ys := rfl
    rw [hstep]
    have hhead := ih (if y.version > v.version then y else v) _ (List.mem_cons_self _ _)
    rcases List.mem_cons.mp hx with hx | hx
    · rw [hx]
      refine le_trans ?_ hhead
      by_cases hy : y.version > v.version <;> simp [hy]
      omega
    rcases List.mem_cons.mp hx with hx | hx
    · rw [hx]
      refine le_trans ?_ hhead
      by_cases hy : y.version > v.version <;> simp [hy]
      omega
    · exact ih _ x (List.mem_cons_of_mem _ hx)

/-- Claim C7: for a non-empty version list the candidate is a version of
maximum numeric value among all known versions; the champion is the alias
lookup's result when that succeeds, and otherwise the highest-numbered
version in stage "Production", with `none` (no champion) exactly when that
stage is empty. -/
theorem candidate_and_champion_resolution (v : ModelVersion) (vs : List ModelVersion)
    (aliasChamp : Option ModelVersion) :
    (maxByVersion v vs ∈ v :: vs ∧
      ∀ x ∈ v :: vs, x.version ≤ (maxByVersion v vs).version) ∧
    (∀ c, aliasChamp = some c → resolveChampion aliasChamp (v :: vs) = some c) ∧
    (aliasChamp = none →
      (resolveChampion none (v :: vs) = none ↔
        (v :: vs).filter (fun x => x.current_stage = "Production") = []) ∧
      (∀ ch, resolveChampion none (v :: vs) = some ch →
        ch ∈ (v :: vs).filter (fun x => x.current_stage = "Production") ∧
        ∀ x ∈ (v :: vs).filter (fun x => x.current_stage = "Production"),
          x.version ≤ ch.version)) := by
  refine ⟨⟨maxByVersion_mem v vs, maxByVersion_ge v vs⟩, ?_, ?_⟩
  · intro c hc
    rw [hc]
    rfl
  · intro _
    constructor
    · cases hf : (v :: vs).filter (fun x => x.current_stage = "Production") with
      | nil => simp [resolveChampion, hf]
      | cons p ps => simp [resolveChampion, hf]
    · intro ch hch
      cases hf : (v :: vs).filter (fun x => x.current_stage = "Production") with
      | nil => simp [resolveChampion, hf] at hch
      | cons p ps =>
        simp only [resolveChampion, hf, Option.some.injEq] at hch
        rw [← hch, ← hf]
        rw [hf]
        exact ⟨maxByVersion_mem p ps, maxByVersion_ge p ps⟩

/-- Closed instance of C7 with three versions, a raising alias lookup and a
version in stage "Production". -/
theorem candidate_and_champion_resolution_witness :
    (maxByVersion ⟨1, "Production"⟩ [⟨3, "None"⟩, ⟨2, "None"⟩] ∈
        (⟨1, "Production"⟩ : ModelVersion) :: [⟨3, "None"⟩, ⟨2, "None"⟩] ∧
      ∀ x ∈ (⟨1, "Production"⟩ : ModelVersion) :: [⟨3, "None"⟩, ⟨2, "None"⟩],
        x.version ≤ (maxByVersion ⟨1, "Production"⟩ [⟨3, "None"⟩, ⟨2, "None"⟩]).version) ∧
    (∀ c, (none : Option ModelVersion) = some c →
      resolveChampion none ((⟨1, "Production"⟩ : ModelVersion) :: [⟨3, "None"⟩, ⟨2, "None"⟩]) =
        some c) ∧
    ((none : Option ModelVersion) = none →
      (resolveChampion none ((⟨1, "Production"⟩ : ModelVersion) :: [⟨3, "None"⟩, ⟨2, "None"⟩]) =
          none ↔
        ((⟨1, "Production"⟩ : ModelVersion) :: [⟨3, "None"⟩, ⟨2, "None"⟩]).filter
            (fun x => x.current_stage = "Production") = []) ∧
      (∀ ch,
        resolveChampion none ((⟨1, "Production"⟩ : ModelVersion) :: [⟨3, "None"⟩, ⟨2, "None"⟩]) =
            some ch →
        ch ∈ ((⟨1, "Production"⟩ : ModelVersion) :: [⟨3, "None"⟩, ⟨2, "None"⟩]).filter
            (fun x => x.current_stage = "Production") ∧
        ∀ x ∈ ((⟨1, "Production"⟩ : ModelVersion) :: [⟨3, "None"⟩, ⟨2, "None"⟩]).filter
            (fun x => x.current_stage = "Production"),
          x.version ≤ ch.version)) :=
  candidate_and_champion_resolution ⟨1, "Production"⟩ [⟨3, "None"⟩, ⟨2, "None"⟩] none

def Effect.isModelLoad : Effect → Bool
  | Effect.loadModel _ => true
  | _ => false

def Effect.isScore : Effect → Bool
  | Effect.scoreModel _ => true
  | _ => false

def Effect.isAudit : Effect → Bool
  | Effect.auditWrite _ _ _ => true
  | _ => false

/-- Registry mutations: the alias flip and the version tags. -/
def Effect.isMutation : Effect → Bool
  | Effect.setAlias _ _ _ => true
  | Effect.setTag _ _ _ _ => true
  | _ => false

def Effect.isReloadAttempt : Effect → Bool
  | Effect.reloadPost _ => true
  | _ => false

/-- Claim C6: with the holdout present, an empty version list aborts the run
with the "no versions" error raised at src/validate_and_promote.py line 60;
the trace shows no model load, no scoring, no audit write and no registry
mutation. -/
theorem no_versions_aborts (w : World) (htd : w.testDfExists = true) (hv : w.versions = []) :
    run w = ([Effect.loadTestDf, Effect.searchVersions w.cfg.mlflow.model_name],
      Except.error (RunError.noVersions w.cfg.mlflow.model_name)) ∧
    (run w).1.all
      (fun e => !e.isModelLoad && !e.isScore && !e.isAudit && !e.isMutation) = true := by
  have h1 : run w = ([Effect.loadTestDf, Effect.searchVersions w.cfg.mlflow.model_name],
      Except.error (RunError.noVersions w.cfg.mlflow.model_name)) := by
    simp [run, htd, hv]
  refine ⟨h1, ?_⟩
  rw [h1]
  rfl

/-- Environment for the closed C6 instance: holdout present, no registered
versions. -/
def emptyRegistryWorld : World :=
  { cfg :=
      { mlflow :=
          { tracking_uri := "http://localhost:5000", experiment := "wine",
            model_name := "wine_model", production_alias := "production" },
        gates := { min_f1 := 0, min_accuracy := 0 },
        api := { reload_url := none, reload_token := none } },
    testDfExists := true, versions := [], aliasChamp := none,
    candLoadOk := true, champLoadOk := true,
    scoreOf := fun _ =>
      { accuracy := 1, precision_macro := 1, recall_macro := 1, f1_macro := 1 },
    reloadOk := true }

/-- Closed instance of C6. -/
theorem no_versions_aborts_witness :
    run emptyRegistryWorld =
      ([Effect.loadTestDf, Effect.searchVersions emptyRegistryWorld.cfg.mlflow.model_name],
        Except.error (RunError.noVersions emptyRegistryWorld.cfg.mlflow.model_name)) ∧
    (run emptyRegistryWorld).1.all
      (fun e => !e.isModelLoad && !e.isScore && !e.isAudit && !e.isMutation) = true :=
  no_versions_aborts emptyRegistryWorld rfl rfl

/-- Candidate URI built by the run for the environment `w`. -/
def candUriOf (w : World) (v : ModelVersion) (vs : List ModelVersion) : String :=
  candidateUri w.cfg.mlflow.model_name (maxByVersion v vs).version

/-- Champion (alias) URI built by the run for the environment `w`. -/
def champUriOf (w : World) : String :=
  championUri w.cfg.mlflow.model_name w.cfg.mlflow.production_alias

/-- Decision string the run computes when a champion was resolved. -/
def decisionOf (w : World) (v : ModelVersion) (vs : List ModelVersion) : String :=
  promotionDecision (w.scoreOf (candUriOf w v vs)) (some (w.scoreOf (champUriOf w))) w.cfg.gates

/-- Decision string the run computes when no champion was resolved. -/
def decisionOfNone (w : World) (v : ModelVersion) (vs : List ModelVersion) : String :=
  promotionDecision (w.scoreOf (candUriOf w v vs)) none w.cfg.gates

/-- Effects up to and including the audit write, champion present. -/
def champBaseTrace (w : World) (v : ModelVersion) (vs : List ModelVersion) (ch : ModelVersion) :
    List Effect :=
  [Effect.loadTestDf, Effect.searchVersions w.cfg.mlflow.model_name,
   Effect.loadModel (candUriOf w v vs), Effect.loadModel (champUriOf w),
   Effect.scoreModel (candUriOf w v vs), Effect.scoreModel (champUriOf w),
   Effect.auditWrite (decisionOf w v vs) (maxByVersion v vs).version (some ch.version)]

/-- Effects up to and including the audit write, no champion. -/
def noChampBaseTrace (w : World) (v : ModelVersion) (vs : List ModelVersion) : List Effect :=
  [Effect.loadTestDf, Effect.searchVersions w.cfg.mlflow.model_name,
   Effect.loadModel (candUriOf w v vs), Effect.scoreModel (candUriOf w v vs),
   Effect.auditWrite (decisionOfNone w v vs) (maxByVersion v vs).version none]

/-- Mutation phase of the run, champion present. -/
def champMutation (w : World) (v : ModelVersion) (vs : List ModelVersion) :
    List Effect × Outcome :=
  mutationPhase w.cfg w.reloadOk (maxByVersion v vs).version (decisionOf w v vs)
    (gatesOk (w.scoreOf (candUriOf w v vs)) w.cfg.gates)
    (betterOrEqual (w.scoreOf (candUriOf w v vs)) (some (w.scoreOf (champUriOf w))))
    (some (w.scoreOf (champUriOf w)))

/-- Mutation phase of the run, no champion. -/
def noChampMutation (w : World) (v : ModelVersion) (vs : List ModelVersion) :
    List Effect × Outcome :=
  mutationPhase w.cfg w.reloadOk (maxByVersion v vs).version (decisionOfNone w v vs)
    (gatesOk (w.scoreOf (candUriOf w v vs)) w.cfg.gates)
    (betterOrEqual (w.scoreOf (candUriOf w v vs)) none)
    none

theorem run_eq_of_champion (w : World) (v : ModelVersion) (vs : List ModelVersion)
    (ch : ModelVersion) (htd : w.testDfExists = true) (hv : w.versions = v :: vs)
    (hch : resolveChampion w.aliasChamp (v :: vs) = some ch)
    (hcl : w.candLoadOk = true) (hchl : w.champLoadOk = true) :
    run w = if (maxByVersion v vs).version = ch.version
      then (champBaseTrace w v vs ch, Except.ok Outcome.skipped)
      else (champBaseTrace w v vs ch ++ (champMutation w v vs).1,
            Except.ok (champMutation w v vs).2) := by
  simp only [run, runScored, htd, hv, hch, hcl, hchl, Bool.true_eq_false, if_false,
    Option.isSome_some, eq_self_iff_true, if_true, Option.map_some]
  unfold champBaseTrace champMutation decisionOf candUriOf champUriOf
  split <;> simp

theorem run_eq_no_champion (w : World) (v : ModelVersion) (vs : List ModelVersion)
    (htd : w.testDfExists = true) (hv : w.versions = v :: vs)
    (hch : resolveChampion w.aliasChamp (v :: vs) = none)
    (hcl : w.candLoadOk = true) :
    run w = (noChampBaseTrace w v vs ++ (noChampMutation w v vs).1,
      Except.ok (noChampMutation w v vs).2) := by
  simp only [run, runScored, htd, hv, hch, hcl, Bool.true_eq_false, if_false,
    Option.isSome_none, Option.map_none]
  unfold noChampBaseTrace noChampMutation decisionOfNone candUriOf
  simp

theorem promotionDecision_cases (cand_m : Metrics) (champ_m : Option Metrics)
    (g : PromotionGates) :
    promotionDecision cand_m champ_m g = "promote" ∨
      promotionDecision cand_m champ_m g = "reject" := by
  by_cases h : (gatesOk cand_m g && betterOrEqual cand_m champ_m
      || champ_m.isNone && gatesOk cand_m g) = true
  · exact Or.inl (by simp [promotionDecision, h])
  · exact Or.inr (by simp [promotionDecision, h])

theorem mutationPhase_outcome_ne_skipped (cfg : AppConfig) (r : Bool) (cv : ℕ) (d : String)
    (g b : Bool) (cm : Option Metrics) :
    (mutationPhase cfg r cv d g b cm).2 ≠ Outcome.skipped := by
  unfold mutationPhase
  split <;> simp

/-- Claim C3: once a champion is resolved and both models load, the run ends
in skip iff the candidate's numeric version equals the champion's; in the
skip case the trace holds no registry mutation and exactly one audit write;
and no metric values (held in `scoreOf`) can change whether the run skips. -/
theorem skip_iff_same_version (w : World) (v : ModelVersion) (vs : List ModelVersion)
    (ch : ModelVersion) (htd : w.testDfExists = true) (hv : w.versions = v :: vs)
    (hch : resolveChampion w.aliasChamp (v :: vs) = some ch)
    (hcl : w.candLoadOk = true) (hchl : w.champLoadOk = true) :
    ((run w).2 = Except.ok Outcome.skipped ↔ (maxByVersion v vs).version = ch.version) ∧
    ((maxByVersion v vs).version = ch.version →
      (run w).1.all (fun e => !e.isMutation) = true ∧
      (run w).1.countP Effect.isAudit = 1) ∧
    (∀ f₁ f₂ : String → Metrics,
      ((run { w with scoreOf := f₁ }).2 = Except.ok Outcome.skipped ↔
        (run { w with scoreOf := f₂ }).2 = Except.ok Outcome.skipped)) := by
  have hne : ∀ w' : World, (champMutation w' v vs).2 ≠ Outcome.skipped := fun w' =>
    mutationPhase_outcome_ne_skipped w'.cfg w'.reloadOk (maxByVersion v vs).version _ _ _ _
  have core : ∀ w' : World, w'.testDfExists = true → w'.versions = v :: vs →
      resolveChampion w'.aliasChamp (v :: vs) = some ch → w'.candLoadOk = true →
      w'.champLoadOk = true →
      ((run w').2 = Except.ok Outcome.skipped ↔ (maxByVersion v vs).version = ch.version) := by
    intro w' h1 h2 h3 h4 h5
    rw [run_eq_of_champion w' v vs ch h1 h2 h3 h4 h5]
    by_cases hveq : (maxByVersion v vs).version = ch.version
    · simp [hveq]
    · simp only [hveq, if_false]
      exact ⟨fun hk => absurd (by simpa using hk) (hne w'), False.elim⟩
  refine ⟨core w htd hv hch hcl hchl, ?_, fun f₁ f₂ =>
    Iff.trans (core _ htd hv hch hcl hchl) (Iff.symm (core _ htd hv hch hcl hchl))⟩
  intro hveq
  rw [run_eq_of_champion w v vs ch htd hv hch hcl hchl, if_pos hveq]
  exact ⟨rfl, rfl⟩

/-- Environment with one version that already carries the production alias:
the idempotency-guard case. -/
def sameVersionWorld : World :=
  { cfg :=
      { mlflow :=
          { tracking_uri := "http://localhost:5000", experiment := "wine",
            model_name := "wine_model", production_alias := "production" },
        gates := { min_f1 := 0, min_accuracy := 0 },
        api := { reload_url := some "http://localhost:8000/reload", reload_token := none } },
    testDfExists := true, versions := [⟨1, "None"⟩], aliasChamp := some ⟨1, "None"⟩,
    candLoadOk := true, champLoadOk := true,
    scoreOf := fun _ =>
      { accuracy := 1, precision_macro := 1, recall_macro := 1, f1_macro := 1 },
    reloadOk := true }

/-- Closed instance of C3 at `sameVersionWorld`. -/
theorem skip_iff_same_version_witness :
    ((run sameVersionWorld).2 = Except.ok Outcome.skipped ↔
      (maxByVersion ⟨1, "None"⟩ []).version = (⟨1, "None"⟩ : ModelVersion).version) ∧
    ((maxByVersion ⟨1, "None"⟩ []).version = (⟨1, "None"⟩ : ModelVersion).version →
      (run sameVersionWorld).1.all (fun e => !e.isMutation) = true ∧
      (run sameVersionWorld).1.countP Effect.isAudit = 1) ∧
    (∀ f₁ f₂ : String → Metrics,
      ((run { sameVersionWorld with scoreOf := f₁ }).2 = Except.ok Outcome.skipped ↔
        (run { sameVersionWorld with scoreOf := f₂ }).2 = Except.ok Outcome.skipped)) :=
  skip_iff_same_version sameVersionWorld ⟨1, "None"⟩ [] ⟨1, "None"⟩ rfl rfl rfl rfl rfl

/-- Claim C10: in a skipped run the audit record's decision field holds the
policy decision computed from the metrics, which is always "promote" or
"reject" and never "skip"; the trace shows exactly two model loads and two
scorings, and its last effect is the audit write, so both predictors were
loaded and scored before the guard fired. -/
theorem audit_decision_never_skip (w : World) (v : ModelVersion) (vs : List ModelVersion)
    (ch : ModelVersion) (htd : w.testDfExists = true) (hv : w.versions = v :: vs)
    (hch : resolveChampion w.aliasChamp (v :: vs) = some ch)
    (hcl : w.candLoadOk = true) (hchl : w.champLoadOk = true)
    (heq : (maxByVersion v vs).version = ch.version) :
    (run w).1 = champBaseTrace w v vs ch ∧
    (decisionOf w v vs = "promote" ∨ decisionOf w v vs = "reject") ∧
    decisionOf w v vs ≠ "skip" ∧
    (run w).1.countP Effect.isModelLoad = 2 ∧
    (run w).1.countP Effect.isScore = 2 ∧
    (run w).1.getLast? = some (Effect.auditWrite (decisionOf w v vs)
      (maxByVersion v vs).version (some ch.version)) := by
  have hrun := run_eq_of_champion w v vs ch htd hv hch hcl hchl
  rw [hrun, if_pos heq]
  have hd := promotionDecision_cases (w.scoreOf (candUriOf w v vs))
    (some (w.scoreOf (champUriOf w))) w.cfg.gates
  refine ⟨rfl, hd, ?_, rfl, rfl, rfl⟩
  rcases hd with h | h
  · rw [show decisionOf w v vs = "promote" from h]
    decide
  · rw [show decisionOf w v vs = "reject" from h]
    decide

/-- Closed instance of C10 at `sameVersionWorld`. -/
theorem audit_decision_never_skip_witness :
    (run sameVersionWorld).1 = champBaseTrace sameVersionWorld ⟨1, "None"⟩ [] ⟨1, "None"⟩ ∧
    (decisionOf sameVersionWorld ⟨1, "None"⟩ [] = "promote" ∨
      decisionOf sameVersionWorld ⟨1, "None"⟩ [] = "reject") ∧
    decisionOf sameVersionWorld ⟨1, "None"⟩ [] ≠ "skip" ∧
    (run sameVersionWorld).1.countP Effect.isModelLoad = 2 ∧
    (run sameVersionWorld).1.countP Effect.isScore = 2 ∧
    (run sameVersionWorld).1.getLast? =
      some (Effect.auditWrite (decisionOf sameVersionWorld ⟨1, "None"⟩ [])
        (maxByVersion ⟨1, "None"⟩ []).version (some (⟨1, "None"⟩ : ModelVersion).version)) :=
  audit_decision_never_skip sameVersionWorld ⟨1, "None"⟩ [] ⟨1, "None"⟩ rfl rfl rfl rfl rfl rfl

/-- Phase of a side effect for the ordering argument: the audit write is
phase 1, registry mutations phase 2, the reload request phase 3; all other
effects are phase 0 and ignored. -/
def effectPhase : Effect → ℕ
  | Effect.auditWrite _ _ _ => 1
  | Effect.setAlias _ _ _ => 2
  | Effect.setTag _ _ _ _ => 2
  | Effect.reloadPost _ => 3
  | _ => 0

/-- Sequence of non-zero phases of a trace, in trace order. -/
def decisionPhases (tr : List Effect) : List ℕ :=
  (tr.map effectPhase).filter (fun n => n ≠ 0)

theorem decisionPhases_append (a b : List Effect) :
    decisionPhases (a ++ b) = decisionPhases a ++ decisionPhases b := by
  simp [decisionPhases]

theorem reloadStep_phases (api : ApiConfig) (r : Bool) :
    decisionPhases (reloadStep api r) = [] ∨ decisionPhases (reloadStep api r) = [3] := by
  rcases h : api.reload_url with _ | u
  · left
    simp [reloadStep, h, decisionPhases]
  · by_cases hu : u = ""
    · left
      simp [reloadStep, h, hu, decisionPhases]
    · cases hr : r
      · right
        simp [reloadStep, h, hu, hr, decisionPhases, effectPhase]
      · right
        simp [reloadStep, h, hu, hr, decisionPhases, effectPhase]

theorem mutationPhase_phases (cfg : AppConfig) (r : Bool) (cv : ℕ) (d : String)
    (g b : Bool) (cm : Option Metrics) :
    decisionPhases (mutationPhase cfg r cv d g b cm).1 = [2, 2] ∨
      decisionPhases (mutationPhase cfg r cv d g b cm).1 = [2, 2, 3] := by
  by_cases hd : d = "promote"
  · have h1 : (mutationPhase cfg r cv d g b cm).1 =
        [Effect.setAlias cfg.mlflow.model_name cfg.mlflow.production_alias cv,
         Effect.setTag cfg.mlflow.model_name cv "decision" "promoted"] ++
          reloadStep cfg.api r := by
      simp [mutationPhase, hd]
    rw [h1, decisionPhases_append]
    rcases reloadStep_phases cfg.api r with h | h <;> rw [h]
    · left
      rfl
    · right
      rfl
  · have h1 : (mutationPhase cfg r cv d g b cm).1 =
        [Effect.setTag cfg.mlflow.model_name cv "decision" "rejected",
         Effect.setTag cfg.mlflow.model_name cv "rejected_reason"
           (rejectedReasonValue (reasonBits g b cm))] := by
      simp [mutationPhase, hd]
    rw [h1]
    left
    rfl

/-- Claim C4: in every run that reaches the decision step, the non-zero
side-effect phases (audit write = 1, registry mutation = 2, reload
request = 3) occur as [1], [1,2,2] or [1,2,2,3] in trace order: the audit
write precedes every registry mutation, and the mutation precedes the
reload request. -/
theorem side_effects_ordered (w : World) (v : ModelVersion) (vs : List ModelVersion)
    (htd : w.testDfExists = true) (hv : w.versions = v :: vs)
    (hcl : w.candLoadOk = true) (hchl : w.champLoadOk = true) :
    decisionPhases (run w).1 = [1] ∨ decisionPhases (run w).1 = [1, 2, 2] ∨
      decisionPhases (run w).1 = [1, 2, 2, 3] := by
  rcases hch : resolveChampion w.aliasChamp (v :: vs) with _ | ch
  · rw [run_eq_no_champion w v vs htd hv hch hcl]
    dsimp only
    unfold noChampMutation
    rw [decisionPhases_append]
    have hb : decisionPhases (noChampBaseTrace w v vs) = [1] := rfl
    rw [hb]
    rcases mutationPhase_phases w.cfg w.reloadOk (maxByVersion v vs).version
        (decisionOfNone w v vs) (gatesOk (w.scoreOf (candUriOf w v vs)) w.cfg.gates)
        (betterOrEqual (w.scoreOf (candUriOf w v vs)) none) none with h | h <;> rw [h]
    · right
      left
      rfl
    · right
      right
      rfl
  · rw [run_eq_of_champion w v vs ch htd hv hch hcl hchl]
    by_cases hveq : (maxByVersion v vs).version = ch.version
    · rw [if_pos hveq]
      left
      rfl
    · rw [if_neg hveq]
      dsimp only
      unfold champMutation
      rw [decisionPhases_append]
      have hb : decisionPhases (champBaseTrace w v vs ch) = [1] := rfl
      rw [hb]
      rcases mutationPhase_phases w.cfg w.reloadOk (maxByVersion v vs).version
          (decisionOf w v vs) (gatesOk (w.scoreOf (candUriOf w v vs)) w.cfg.gates)
          (betterOrEqual (w.scoreOf (candUriOf w v vs)) (some (w.scoreOf (champUriOf w))))
          (some (w.scoreOf (champUriOf w))) with h | h <;> rw [h]
      · right
        left
        rfl
      · right
        right
        rfl

/-- Environment that promotes version 2 over champion version 1 and has a
reload endpoint configured. -/
def promoteWorld : World :=
  { cfg :=
      { mlflow :=
          { tracking_uri := "http://localhost:5000", experiment := "wine",
            model_name := "wine_model", production_alias := "production" },
        gates := { min_f1 := 0, min_accuracy := 0 },
        api := { reload_url := some "http://localhost:8000/reload",
                 reload_token := some "token" } },
    testDfExists := true, versions := [⟨1, "None"⟩, ⟨2, "None"⟩],
    aliasChamp := some ⟨1, "None"⟩,
    candLoadOk := true, champLoadOk := true,
    scoreOf := fun _ =>
      { accuracy := 1, precision_macro := 1, recall_macro := 1, f1_macro := 1 },
    reloadOk := true }

/-- Closed instance of C4 at `promoteWorld`. -/
theorem side_effects_ordered_witness :
    decisionPhases (run promoteWorld).1 = [1] ∨
      decisionPhases (run promoteWorld).1 = [1, 2, 2] ∨
      decisionPhases (run promoteWorld).1 = [1, 2, 2, 3] :=
  side_effects_ordered promoteWorld ⟨1, "None"⟩ [⟨2, "None"⟩] rfl rfl rfl rfl

theorem reloadStep_none (api : ApiConfig) (r : Bool) (h : api.reload_url = none) :
    reloadStep api r = [] := by
  simp [reloadStep, h]

theorem reloadStep_count (api : ApiConfig) (r : Bool) :
    (reloadStep api r).countP Effect.isReloadAttempt = 0 ∨
      (reloadStep api r).countP Effect.isReloadAttempt = 1 := by
  rcases h : api.reload_url with _ | u
  · left
    rw [reloadStep_none api r h]
    rfl
  · by_cases hu : u = ""
    · left
      rw [show reloadStep api r = [] from by simp [reloadStep, h, hu]]
      rfl
    · cases r
      · right
        rw [show reloadStep api false = [Effect.reloadPost u, Effect.reloadFailureLogged] from by
          simp [reloadStep, h, hu]]
        rfl
      · right
        rw [show reloadStep api true = [Effect.reloadPost u, Effect.reloadStatusLogged] from by
          simp [reloadStep, h, hu]]
        rfl

theorem reloadStep_no_mutation (api : ApiConfig) (r : Bool) :
    (reloadStep api r).filter (fun e => e.isMutation || e.isAudit) = [] := by
  rcases h : api.reload_url with _ | u
  · simp [reloadStep, h]
  · by_cases hu : u = "" <;> cases hr : r <;>
      simp [reloadStep, h, hu, hr, Effect.isMutation, Effect.isAudit]

theorem reloadStep_failure_logged (api : ApiConfig) (u : String)
    (hmem : Effect.reloadPost u ∈ reloadStep api false) :
    Effect.reloadFailureLogged ∈ reloadStep api false := by
  rcases h : api.reload_url with _ | u'
  · rw [reloadStep_none api false h] at hmem
    simp at hmem
  · by_cases hu : u' = ""
    · rw [show reloadStep api false = [] from by simp [reloadStep, h, hu]] at hmem
      simp at hmem
    · rw [show reloadStep api false = [Effect.reloadPost u', Effect.reloadFailureLogged] from by
        simp [reloadStep, h, hu]] at hmem ⊢
      simp

theorem mutationPhase_outcome_const (cfg : AppConfig) (r r' : Bool) (cv : ℕ) (d : String)
    (g b : Bool) (cm : Option Metrics) :
    (mutationPhase cfg r cv d g b cm).2 = (mutationPhase cfg r' cv d g b cm).2 := by
  by_cases hd : d = "promote" <;> simp [mutationPhase, hd]

theorem mutationPhase_filter_const (cfg : AppConfig) (r r' : Bool) (cv : ℕ) (d : String)
    (g b : Bool) (cm : Option Metrics) :
    (mutationPhase cfg r cv d g b cm).1.filter (fun e => e.isMutation || e.isAudit) =
      (mutationPhase cfg r' cv d g b cm).1.filter (fun e => e.isMutation || e.isAudit) := by
  by_cases hd : d = "promote"
  · have h1 : ∀ rr : Bool, (mutationPhase cfg rr cv d g b cm).1 =
        [Effect.setAlias cfg.mlflow.model_name cfg.mlflow.production_alias cv,
         Effect.setTag cfg.mlflow.model_name cv "decision" "promoted"] ++
          reloadStep cfg.api rr := by
      intro rr
      simp [mutationPhase, hd]
    rw [h1 r, h1 r', List.filter_append, List.filter_append,
      reloadStep_no_mutation cfg.api r, reloadStep_no_mutation cfg.api r']
  · simp [mutationPhase, hd]

theorem mutationPhase_count (cfg : AppConfig) (r : Bool) (cv : ℕ) (d : String)
    (g b : Bool) (cm : Option Metrics) :
    (mutationPhase cfg r cv d g b cm).1.countP Effect.isReloadAttempt ≤ 1 := by
  by_cases hd : d = "promote"
  · have h1 : (mutationPhase cfg r cv d g b cm).1 =
        [Effect.setAlias cfg.mlflow.model_name cfg.mlflow.production_alias cv,
         Effect.setTag cfg.mlflow.model_name cv "decision" "promoted"] ++
          reloadStep cfg.api r := by
      simp [mutationPhase, hd]
    rw [h1, List.countP_append]
    have h0 : List.countP Effect.isReloadAttempt
        [Effect.setAlias cfg.mlflow.model_name cfg.mlflow.production_alias cv,
         Effect.setTag cfg.mlflow.model_name cv "decision" "promoted"] = 0 := rfl
    rw [h0]
    rcases reloadStep_count cfg.api r with h | h <;> omega
  · have h1 : (mutationPhase cfg r cv d g b cm).1 =
        [Effect.setTag cfg.mlflow.model_name cv "decision" "rejected",
         Effect.setTag cfg.mlflow.model_name cv "rejected_reason"
           (rejectedReasonValue (reasonBits g b cm))] := by
      simp [mutationPhase, hd]
    rw [h1]
    have h0 : List.countP Effect.isReloadAttempt
        [Effect.setTag cfg.mlflow.model_name cv "decision" "rejected",
         Effect.setTag cfg.mlflow.model_name cv "rejected_reason"
           (rejectedReasonValue (reasonBits g b cm))] = 0 := rfl
    omega

theorem mutationPhase_count_none (cfg : AppConfig) (r : Bool) (cv : ℕ) (d : String)
    (g b : Bool) (cm : Option Metrics) (hnone : cfg.api.reload_url = none) :
    (mutationPhase cfg r cv d g b cm).1.countP Effect.isReloadAttempt = 0 := by
  by_cases hd : d = "promote"
  · have h1 : (mutationPhase cfg r cv d g b cm).1 =
        [Effect.setAlias cfg.mlflow.model_name cfg.mlflow.production_alias cv,
         Effect.setTag cfg.mlflow.model_name cv "decision" "promoted"] ++
          reloadStep cfg.api r := by
      simp [mutationPhase, hd]
    rw [h1, reloadStep_none cfg.api r hnone]
    rfl
  · have h1 : (mutationPhase cfg r cv d g b cm).1 =
        [Effect.setTag cfg.mlflow.model_name cv "decision" "rejected",
         Effect.setTag cfg.mlflow.model_name cv "rejected_reason"
           (rejectedReasonValue (reasonBits g b cm))] := by
      simp [mutationPhase, hd]
    rw [h1]
    rfl

theorem mutationPhase_failure_logged (cfg : AppConfig) (cv : ℕ) (d : String)
    (g b : Bool) (cm : Option Metrics) (u : String)
    (hmem : Effect.reloadPost u ∈ (mutationPhase cfg false cv d g b cm).1) :
    Effect.reloadFailureLogged ∈ (mutationPhase cfg false cv d g b cm).1 := by
  by_cases hd : d = "promote"
  · have h1 : (mutationPhase cfg false cv d g b cm).1 =
        [Effect.setAlias cfg.mlflow.model_name cfg.mlflow.production_alias cv,
         Effect.setTag cfg.mlflow.model_name cv "decision" "promoted"] ++
          reloadStep cfg.api false := by
      simp [mutationPhase, hd]
    rw [h1] at hmem ⊢
    rw [List.mem_append] at hmem ⊢
    rcases hmem with h | h
    · simp at h
    · exact Or.inr (reloadStep_failure_logged cfg.api u h)
  · have h1 : (mutationPhase cfg false cv d g b cm).1 =
        [Effect.setTag cfg.mlflow.model_name cv "decision" "rejected",
         Effect.setTag cfg.mlflow.model_name cv "rejected_reason"
           (rejectedReasonValue (reasonBits g b cm))] := by
      simp [mutationPhase, hd]
    rw [h1] at hmem
    simp at hmem

/-- Claim C2: whenever the decision step is reached, the run completes with
a successful outcome regardless of whether the reload request succeeds or
fails; the reload is attempted at most once and never when no reload URL is
configured; the audit and registry-mutation effects and the final result
are identical whether the reload succeeds or fails (so the completed
mutation is never blocked or reversed); and a failed attempt is logged. -/
theorem reload_failure_nonfatal (w : World) (v : ModelVersion) (vs : List ModelVersion)
    (htd : w.testDfExists = true) (hv : w.versions = v :: vs)
    (hcl : w.candLoadOk = true) (hchl : w.champLoadOk = true) :
    (∃ o : Outcome, (run w).2 = Except.ok o) ∧
    (run w).1.countP Effect.isReloadAttempt ≤ 1 ∧
    (w.cfg.api.reload_url = none → (run w).1.countP Effect.isReloadAttempt = 0) ∧
    (∀ b : Bool,
      (run { w with reloadOk := b }).1.filter (fun e => e.isMutation || e.isAudit) =
          (run w).1.filter (fun e => e.isMutation || e.isAudit) ∧
        (run { w with reloadOk := b }).2 = (run w).2) ∧
    (∀ u : String, Effect.reloadPost u ∈ (run w).1 → w.reloadOk = false →
      Effect.reloadFailureLogged ∈ (run w).1) := by
  rcases hch : resolveChampion w.aliasChamp (v :: vs) with _ | ch
  · have hrun := run_eq_no_champion w v vs htd hv hch hcl
    have hb0 : (noChampBaseTrace w v vs).countP Effect.isReloadAttempt = 0 := rfl
    have hcount : (noChampMutation w v vs).1.countP Effect.isReloadAttempt ≤ 1 :=
      mutationPhase_count w.cfg w.reloadOk (maxByVersion v vs).version
        (decisionOfNone w v vs) (gatesOk (w.scoreOf (candUriOf w v vs)) w.cfg.gates)
        (betterOrEqual (w.scoreOf (candUriOf w v vs)) none) none
    have hcount0 : w.cfg.api.reload_url = none →
        (noChampMutation w v vs).1.countP Effect.isReloadAttempt = 0 := fun hn =>
      mutationPhase_count_none w.cfg w.reloadOk (maxByVersion v vs).version
        (decisionOfNone w v vs) (gatesOk (w.scoreOf (candUriOf w v vs)) w.cfg.gates)
        (betterOrEqual (w.scoreOf (candUriOf w v vs)) none) none hn
    have houtc : ∀ b : Bool,
        (noChampMutation { w with reloadOk := b } v vs).2 = (noChampMutation w v vs).2 :=
      fun b => mutationPhase_outcome_const w.cfg b w.reloadOk (maxByVersion v vs).version
        (decisionOfNone w v vs) (gatesOk (w.scoreOf (candUriOf w v vs)) w.cfg.gates)
        (betterOrEqual (w.scoreOf (candUriOf w v vs)) none) none
    have hfilt : ∀ b : Bool,
        (noChampMutation { w with reloadOk := b } v vs).1.filter
            (fun e => e.isMutation || e.isAudit) =
          (noChampMutation w v vs).1.filter (fun e => e.isMutation || e.isAudit) :=
      fun b => mutationPhase_filter_const w.cfg b w.reloadOk (maxByVersion v vs).version
        (decisionOfNone w v vs) (gatesOk (w.scoreOf (candUriOf w v vs)) w.cfg.gates)
        (betterOrEqual (w.scoreOf (candUriOf w v vs)) none) none
    have hlog : ∀ u : String, Effect.reloadPost u ∈ (noChampMutation w v vs).1 →
        w.reloadOk = false → Effect.reloadFailureLogged ∈ (noChampMutation w v vs).1 := by
      intro u hmem hro
      have hkey : noChampMutation w v vs = mutationPhase w.cfg false
          (maxByVersion v vs).version (decisionOfNone w v vs)
          (gatesOk (w.scoreOf (candUriOf w v vs)) w.cfg.gates)
          (betterOrEqual (w.scoreOf (candUriOf w v vs)) none) none := by
        unfold noChampMutation
        rw [hro]
      rw [hkey] at hmem ⊢
      exact mutationPhase_failure_logged w.cfg (maxByVersion v vs).version
        (decisionOfNone w v vs) (gatesOk (w.scoreOf (candUriOf w v vs)) w.cfg.gates)
        (betterOrEqual (w.scoreOf (candUriOf w v vs)) none) none u hmem
    refine ⟨⟨(noChampMutation w v vs).2, by rw [hrun]⟩, ?_, ?_, ?_, ?_⟩
    · rw [hrun]
      dsimp only
      rw [List.countP_append, hb0]
      omega
    · intro hn
      rw [hrun]
      dsimp only
      rw [List.countP_append, hb0, hcount0 hn]
    · intro b
      have hrunb := run_eq_no_champion { w with reloadOk := b } v vs htd hv hch hcl
      rw [hrunb, hrun]
      constructor
      · dsimp only
        rw [List.filter_append, List.filter_append]
        have hbB : noChampBaseTrace { w with reloadOk := b } v vs =
            noChampBaseTrace w v vs := rfl
        rw [hbB, hfilt b]
      · dsimp only
        rw [houtc b]
    · intro u hmem hro
      rw [hrun] at hmem ⊢
      dsimp only at hmem ⊢
      rw [List.mem_append] at hmem ⊢
      rcases hmem with h | h
      · exfalso
        simp [noChampBaseTrace] at h
      · exact Or.inr (hlog u h hro)
  · have hrun := run_eq_of_champion w v vs ch htd hv hch hcl hchl
    by_cases hveq : (maxByVersion v vs).version = ch.version
    · rw [if_pos hveq] at hrun
      have hb0 : (champBaseTrace w v vs ch).countP Effect.isReloadAttempt = 0 := rfl
      refine ⟨⟨Outcome.skipped, by rw [hrun]⟩, ?_, ?_, ?_, ?_⟩
      · rw [hrun, hb0]
        omega
      · intro _
        rw [hrun]
        exact hb0
      · intro b
        have hrunb := run_eq_of_champion { w with reloadOk := b } v vs ch htd hv hch hcl hchl
        rw [if_pos hveq] at hrunb
        rw [hrunb, hrun]
        exact ⟨rfl, rfl⟩
      · intro u hmem _
        rw [hrun] at hmem
        exfalso
        simp [champBaseTrace] at hmem
    · rw [if_neg hveq] at hrun
      have hb0 : (champBaseTrace w v vs ch).countP Effect.isReloadAttempt = 0 := rfl
      have hcount : (champMutation w v vs).1.countP Effect.isReloadAttempt ≤ 1 :=
      mutationPhase_count w.cfg w.reloadOk (maxByVersion v vs).version
        (decisionOf w v vs) (gatesOk (w.scoreOf (candUriOf w v vs)) w.cfg.gates)
        (betterOrEqual (w.scoreOf (candUriOf w v vs)) (some (w.scoreOf (champUriOf w))))
        (some (w.scoreOf (champUriOf w)))
      have hcount0 : w.cfg.api.reload_url = none →
          (champMutation w v vs).1.countP Effect.isReloadAttempt = 0 := fun hn =>
        mutationPhase_count_none w.cfg w.reloadOk (maxByVersion v vs).version
          (decisionOf w v vs) (gatesOk (w.scoreOf (candUriOf w v vs)) w.cfg.gates)
          (betterOrEqual (w.scoreOf (candUriOf w v vs)) (some (w.scoreOf (champUriOf w))))
          (some (w.scoreOf (champUriOf w))) hn
      have houtc : ∀ b : Bool,
          (champMutation { w with reloadOk := b } v vs).2 = (champMutation w v vs).2 :=
        fun b => mutationPhase_outcome_const w.cfg b w.reloadOk (maxByVersion v vs).version
          (decisionOf w v vs) (gatesOk (w.scoreOf (candUriOf w v vs)) w.cfg.gates)
          (betterOrEqual (w.scoreOf (candUriOf w v vs)) (some (w.scoreOf (champUriOf w))))
          (some (w.scoreOf (champUriOf w)))
      have hfilt : ∀ b : Bool,
          (champMutation { w with reloadOk := b } v vs).1.filter
              (fun e => e.isMutation || e.isAudit) =
            (champMutation w v vs).1.filter (fun e => e.isMutation || e.isAudit) :=
        fun b => mutationPhase_filter_const w.cfg b w.reloadOk (maxByVersion v vs).version
          (decisionOf w v vs) (gatesOk (w.scoreOf (candUriOf w v vs)) w.cfg.gates)
          (betterOrEqual (w.scoreOf (candUriOf w v vs)) (some (w.scoreOf (champUriOf w))))
          (some (w.scoreOf (champUriOf w)))
      have hlog : ∀ u : String, Effect.reloadPost u ∈ (champMutation w v vs).1 →
          w.reloadOk = false → Effect.reloadFailureLogged ∈ (champMutation w v vs).1 := by
        intro u hmem hro
        have hkey : champMutation w v vs = mutationPhase w.cfg false
            (maxByVersion v vs).version (decisionOf w v vs)
            (gatesOk (w.scoreOf (candUriOf w v vs)) w.cfg.gates)
            (betterOrEqual (w.scoreOf (candUriOf w v vs)) (some (w.scoreOf (champUriOf w))))
            (some (w.scoreOf (champUriOf w))) := by
          unfold champMutation
          rw [hro]
        rw [hkey] at hmem ⊢
        exact mutationPhase_failure_logged w.cfg (maxByVersion v vs).version
          (decisionOf w v vs) (gatesOk (w.scoreOf (candUriOf w v vs)) w.cfg.gates)
          (betterOrEqual (w.scoreOf (candUriOf w v vs)) (some (w.scoreOf (champUriOf w))))
          (some (w.scoreOf (champUriOf w))) u hmem
      refine ⟨⟨(champMutation w v vs).2, by rw [hrun]⟩, ?_, ?_, ?_, ?_⟩
      · rw [hrun]
        dsimp only
        rw [List.countP_append, hb0]
        omega
      · intro hn
        rw [hrun]
        dsimp only
        rw [List.countP_append, hb0, hcount0 hn]
      · intro b
        have hrunb := run_eq_of_champion { w with reloadOk := b } v vs ch htd hv hch hcl hchl
        rw [if_neg hveq] at hrunb
        rw [hrunb, hrun]
        constructor
        · dsimp only
          rw [List.filter_append, List.filter_append]
          have hbB : champBaseTrace { w with reloadOk := b } v vs ch =
              champBaseTrace w v vs ch := rfl
          rw [hbB, hfilt b]
        · dsimp only
          rw [houtc b]
      · intro u hmem hro
        rw [hrun] at hmem ⊢
        dsimp only at hmem ⊢
        rw [List.mem_append] at hmem ⊢
        rcases hmem with h | h
        · exfalso
          simp [champBaseTrace] at h
        · exact Or.inr (hlog u h hro)

/-- Environment identical to `promoteWorld` except the reload request
fails. -/
def promoteReloadFailWorld : World :=
  { promoteWorld with reloadOk := false }

/-- Closed instance of C2 at `promoteReloadFailWorld`. -/
theorem reload_failure_nonfatal_witness :
    (∃ o : Outcome, (run promoteReloadFailWorld).2 = Except.ok o) ∧
    (run promoteReloadFailWorld).1.countP Effect.isReloadAttempt ≤ 1 ∧
    (promoteReloadFailWorld.cfg.api.reload_url = none →
      (run promoteReloadFailWorld).1.countP Effect.isReloadAttempt = 0) ∧
    (∀ b : Bool,
      (run { promoteReloadFailWorld with reloadOk := b }).1.filter
          (fun e => e.isMutation || e.isAudit) =
        (run promoteReloadFailWorld).1.filter (fun e => e.isMutation || e.isAudit) ∧
      (run { promoteReloadFailWorld with reloadOk := b }).2 =
        (run promoteReloadFailWorld).2) ∧
    (∀ u : String, Effect.reloadPost u ∈ (run promoteReloadFailWorld).1 →
      promoteReloadFailWorld.reloadOk = false →
      Effect.reloadFailureLogged ∈ (run promoteReloadFailWorld).1) :=
  reload_failure_nonfatal promoteReloadFailWorld ⟨1, "None"⟩ [⟨2, "None"⟩] rfl rfl rfl rfl

/-- Outcome-determining environment of one `_score` call
(src/validate_and_promote.py lines 23-44) on a non-None model:
`probasAvailable` is whether the guarded lookup of the sklearn model's
`predict_proba` (lines 28-34, any exception caught and ignored) produced
probabilities; `aucResult` is the value `roc_auc_score` returns at line 40,
`none` when it raises; the four rationals are the sklearn metric results of
lines 35-36. -/
structure ScoreEnv where
  probasAvailable : Bool
  aucResult : Option ℚ
  accuracy : ℚ
  precision_macro : ℚ
  recall_macro : ℚ
  f1_macro : ℚ

/-- The metric dictionary `_score` returns (lines 37-44): the four core keys
always, plus `roc_auc_macro` appended only when probabilities were
available and the AUC computation succeeded. -/
def scoreReport (e : ScoreEnv) : List (String × ℚ) :=
  let m := [("accuracy", e.accuracy), ("precision_macro", ScoreEnv.precision_macro e),
            ("recall_macro", ScoreEnv.recall_macro e), ("f1_macro", ScoreEnv.f1_macro e)]
  if e.probasAvailable then
    match e.aucResult with
    | some auc => m ++ [("roc_auc_macro", auc)]
    | none => m
  else m

/-- Claim C8: every `_score` evaluation of a loadable model yields the four
mandatory metrics; `roc_auc_macro` is present exactly when per-class
probabilities were available and the AUC computation succeeded; an AUC
failure (or missing probability capability) leaves the report at exactly
the four mandatory metrics. -/
theorem score_mandatory_metrics (e : ScoreEnv) :
    (scoreReport e).lookup "accuracy" = some e.accuracy ∧
    (scoreReport e).lookup "precision_macro" = some (ScoreEnv.precision_macro e) ∧
    (scoreReport e).lookup "recall_macro" = some (ScoreEnv.recall_macro e) ∧
    (scoreReport e).lookup "f1_macro" = some (ScoreEnv.f1_macro e) ∧
    ((scoreReport e).lookup "roc_auc_macro" =
      if e.probasAvailable then e.aucResult else none) ∧
    (e.probasAvailable = false ∨ e.aucResult = none →
      scoreReport e = [("accuracy", e.accuracy), ("precision_macro", ScoreEnv.precision_macro e),
        ("recall_macro", ScoreEnv.recall_macro e), ("f1_macro", ScoreEnv.f1_macro e)]) := by
  cases hp : e.probasAvailable <;> rcases ha : e.aucResult with _ | a <;>
    simp [scoreReport, hp, ha, List.lookup]

/-- Closed instance of C8 with probabilities available but a failing AUC
computation. -/
theorem score_mandatory_metrics_witness :
    (scoreReport ⟨true, none, 1, 1, 1, 1⟩).lookup "accuracy" =
      some (⟨true, none, 1, 1, 1, 1⟩ : ScoreEnv).accuracy ∧
    (scoreReport ⟨true, none, 1, 1, 1, 1⟩).lookup "precision_macro" =
      some (ScoreEnv.precision_macro ⟨true, none, 1, 1, 1, 1⟩) ∧
    (scoreReport ⟨true, none, 1, 1, 1, 1⟩).lookup "recall_macro" =
      some (ScoreEnv.recall_macro ⟨true, none, 1, 1, 1, 1⟩) ∧
    (scoreReport ⟨true, none, 1, 1, 1, 1⟩).lookup "f1_macro" =
      some (ScoreEnv.f1_macro ⟨true, none, 1, 1, 1, 1⟩) ∧
    ((scoreReport ⟨true, none, 1, 1, 1, 1⟩).lookup "roc_auc_macro" =
      if (⟨true, none, 1, 1, 1, 1⟩ : ScoreEnv).probasAvailable
      then (⟨true, none, 1, 1, 1, 1⟩ : ScoreEnv).aucResult else none) ∧
    ((⟨true, none, 1, 1, 1, 1⟩ : ScoreEnv).probasAvailable = false ∨
        (⟨true, none, 1, 1, 1, 1⟩ : ScoreEnv).aucResult = none →
      scoreReport ⟨true, none, 1, 1, 1, 1⟩ =
        [("accuracy", (⟨true, none, 1, 1, 1, 1⟩ : ScoreEnv).accuracy),
         ("precision_macro", ScoreEnv.precision_macro ⟨true, none, 1, 1, 1, 1⟩),
         ("recall_macro", ScoreEnv.recall_macro ⟨true, none, 1, 1, 1, 1⟩),
         ("f1_macro", ScoreEnv.f1_macro ⟨true, none, 1, 1, 1, 1⟩)]) :=
  score_mandatory_metrics ⟨true, none, 1, 1, 1, 1⟩
